import Mathlib

/-!
Verification of `modules/planning/math/smoothing_spline/osqp_spline_1d_solver.cc`
(Apollo planning).  The file formulates a 1-d spline fitting problem as a QP,
hands it to the OSQP backend, and writes the primal solution back into the
spline segments.  We embed the observable behaviour of
`OsqpSpline1dSolver::Solve`, `CleanUp`, `ResetOsqp` and the
constructor/destructor shallowly: real values become exact rationals, the OSQP
backend becomes an oracle supplying a status value and a primal vector, and the
calls into the backend (`osqp_setup`, `osqp_solve`, `osqp_cleanup`) and into
`Spline1d::SetSplineSegs` are recorded as events.
-/

namespace Apollo

/-- Dense matrix in the role of `Eigen::MatrixXd`: row and column counts plus an
entry function; only entries at indices below the counts are meaningful. -/
structure MatrixXd where
  rows : Nat
  cols : Nat
  entry : Nat → Nat → ℚ

/-- The constant `kEpsilon = 1e-9` of `OsqpSpline1dSolver::Solve` (line 150),
used to encode an equality row as a tight double-sided inequality. -/
def kEpsilon : ℚ := 1 / 1000000000

/-- The constant `kUpperLimit = 1e9` of `OsqpSpline1dSolver::Solve` (line 151),
the sentinel upper bound placed on inequality rows. -/
def kUpperLimit : ℚ := 1000000000

/-- The inputs `Solve` reads from its collaborators: the kernel (cost) matrix
`kernel_.kernel_matrix()`, the linear offset `kernel_.offset()`, and the
matrices and one-column boundary matrices of the inequality and equality
constraint blocks of `constraint_`. -/
structure SolveInput where
  kernel_matrix : MatrixXd
  offset : MatrixXd
  inequality_constraint_matrix : MatrixXd
  inequality_constraint_boundary : MatrixXd
  equality_constraint_matrix : MatrixXd
  equality_constraint_boundary : MatrixXd

/-- The vertical stacking `A << inequality_constraint_matrix,
equality_constraint_matrix` of lines 111-114: inequality rows first, equality
rows after, total row count the sum of the two. -/
def stackedA (ineqM eqM : MatrixXd) : MatrixXd :=
  ⟨ineqM.rows + eqM.rows, ineqM.cols,
    fun i j => if i < ineqM.rows then ineqM.entry i j else eqM.entry (i - ineqM.rows) j⟩

/-- The lower bound array `l` built by the loop at lines 154-163: the boundary
value for an inequality row, the equality target minus `kEpsilon` for an
equality row, with the split at `inequality_constraint_boundary.rows()`. -/
def lowerBound (inp : SolveInput) (i : Nat) : ℚ :=
  if i < inp.inequality_constraint_boundary.rows then
    inp.inequality_constraint_boundary.entry i 0
  else
    inp.equality_constraint_boundary.entry
      (i - inp.inequality_constraint_boundary.rows) 0 - kEpsilon

/-- The upper bound array `u` built by the loop at lines 154-163: `kUpperLimit`
for an inequality row, the equality target plus `kEpsilon` for an equality
row. -/
def upperBound (inp : SolveInput) (i : Nat) : ℚ :=
  if i < inp.inequality_constraint_boundary.rows then
    kUpperLimit
  else
    inp.equality_constraint_boundary.entry
      (i - inp.inequality_constraint_boundary.rows) 0 + kEpsilon

/-- Calls `Solve` and the destructor make into the OSQP backend. -/
inductive OsqpEvent
  | setupCall
  | solveCall
  | cleanupCall
deriving DecidableEq, Repr

/-- The OSQP backend as an oracle: what `osqp_solve` leaves in the workspace —
a status value (`work_->info->status_val`; `1` means solved) and the primal
vector `work_->solution->x`. -/
structure OSQPOracle where
  statusVal : Int
  solutionX : Nat → ℚ

/-- OSQP status value for a solved problem. -/
def OSQP_SOLVED : Int := 1

/-- OSQP status value for a primal-infeasible problem. -/
def OSQP_PRIMAL_INFEASIBLE : Int := -3

/-- The diagnostic counters `last_num_param_` and `last_num_constraint_`
retained on the solver object (lines 183-184). -/
structure DiagState where
  last_num_param : Nat
  last_num_constraint : Nat
deriving DecidableEq, Repr

/-- Everything observable about one `Solve` call: the returned bool, the
diagnostic counters afterwards, the backend calls made, and the
`SetSplineSegs` calls made (parameter matrix and order). -/
structure SolveOutput where
  result : Bool
  diag : DiagState
  events : List OsqpEvent
  splineCalls : List (MatrixXd × Nat)

namespace OsqpSpline1dSolver

/-- Shallow embedding of `OsqpSpline1dSolver::Solve` (lines 80-187).
It returns `false` at once if the kernel matrix has zero rows (lines 87-89) or
if the stacked constraint matrix has zero rows (lines 116-118).  Otherwise it
calls `osqp_setup` and `osqp_solve`, copies `work_->solution->x` into an
`n × 1` matrix `solved_params` without inspecting the solver status
(lines 178-181), updates the diagnostic counters, and returns the value of
`spline_.SetSplineSegs(solved_params, spline_.spline_order())`. -/
def Solve (inp : SolveInput) (oracle : OSQPOracle)
    (setSplineSegs : MatrixXd → Nat → Bool) (splineOrder : Nat)
    (st : DiagState) : SolveOutput :=
  if inp.kernel_matrix.rows = 0 then
    ⟨false, st, [], []⟩
  else if (stackedA inp.inequality_constraint_matrix
      inp.equality_constraint_matrix).rows = 0 then
    ⟨false, st, [], []⟩
  else
    let solved_params : MatrixXd :=
      ⟨inp.kernel_matrix.rows, 1, fun i _ => oracle.solutionX i⟩
    ⟨setSplineSegs solved_params splineOrder,
     ⟨inp.kernel_matrix.rows,
      inp.inequality_constraint_boundary.rows
        + inp.equality_constraint_boundary.rows⟩,
     [OsqpEvent.setupCall, OsqpEvent.solveCall],
     [(solved_params, splineOrder)]⟩

/-- Backend events of `OsqpSpline1dSolver::CleanUp` (lines 61-71): one
`osqp_cleanup(work_)` call; the `c_free`s of `data_` and `settings_` touch no
solver workspace. -/
def CleanUpEvents : List OsqpEvent := [OsqpEvent.cleanupCall]

end OsqpSpline1dSolver

/-- One operation in the lifetime of a single `OsqpSpline1dSolver` object. -/
inductive LifecycleOp
  | construct
  | solveOp (inp : SolveInput) (oracle : OSQPOracle)
  | resetOsqp
  | destruct

/-- Backend events of one lifecycle operation.  The constructor (lines 39-57)
only mallocs `settings_` and `data_`; `ResetOsqp` (lines 73-78) likewise; the
destructor (line 59) runs `CleanUp`; a `Solve` call emits the events of the
`Solve` embedding. -/
def opWorkspaceEvents (setSplineSegs : MatrixXd → Nat → Bool) (splineOrder : Nat)
    (st : DiagState) : LifecycleOp → List OsqpEvent
  | LifecycleOp.construct => []
  | LifecycleOp.solveOp inp oracle =>
      (OsqpSpline1dSolver.Solve inp oracle setSplineSegs splineOrder st).events
  | LifecycleOp.resetOsqp => []
  | LifecycleOp.destruct => OsqpSpline1dSolver.CleanUpEvents

/-- Backend events of a whole operation sequence on one solver object. -/
def runWorkspaceEvents (setSplineSegs : MatrixXd → Nat → Bool) (splineOrder : Nat)
    (st : DiagState) (ops : List LifecycleOp) : List OsqpEvent :=
  (ops.map (opWorkspaceEvents setSplineSegs splineOrder st)).flatten

/-- Scan of a backend event stream tracking whether a workspace set up earlier
is still live.  A second `osqp_setup` while one is live is a leak, an
`osqp_cleanup` with none live is a spurious release, and a live workspace at
the end of the stream is a leak at destruction. -/
def pairedAux : Bool → List OsqpEvent → Bool
  | armed, [] => !armed
  | armed, OsqpEvent.setupCall :: rest => if armed then false else pairedAux true rest
  | armed, OsqpEvent.cleanupCall :: rest => if armed then pairedAux false rest else false
  | armed, OsqpEvent.solveCall :: rest => pairedAux armed rest

/-- A backend event stream keeps the setup/cleanup discipline: every successful
setup is matched by exactly one cleanup before the next setup or before the end
of the stream, with no release of a workspace that is not live. -/
def workspacePaired (evs : List OsqpEvent) : Bool := pairedAux false evs

/-- Sample well-formed problem (the scenario of the spec): identity-like cost
on two parameters, one inequality row pinning `x0 >= 1`, one equality row
pinning `x1 == 3`. -/
def sampleInput : SolveInput :=
  ⟨⟨2, 2, fun i j => if i = j then 2 else 0⟩,
   ⟨2, 1, fun _ _ => 0⟩,
   ⟨1, 2, fun _ j => if j = 0 then 1 else 0⟩,
   ⟨1, 1, fun _ _ => 1⟩,
   ⟨1, 2, fun _ j => if j = 1 then 1 else 0⟩,
   ⟨1, 1, fun _ _ => 3⟩⟩

/-- An oracle reporting a solved status with the expected primal point. -/
def okOracle : OSQPOracle := ⟨OSQP_SOLVED, fun i => if i = 0 then 1 else 3⟩

/-- An oracle reporting primal infeasibility; the primal array it leaves behind
is all zeros. -/
def infeasibleOracle : OSQPOracle := ⟨OSQP_PRIMAL_INFEASIBLE, fun _ => 0⟩

/-- A segment setter that accepts anything. -/
def alwaysTrueSegs : MatrixXd → Nat → Bool := fun _ _ => true

/-- Initial diagnostic counters. -/
def d0 : DiagState := ⟨0, 0⟩

/-- Input whose kernel matrix has zero rows (empty spline problem). -/
def emptyKernelInput : SolveInput :=
  ⟨⟨0, 0, fun _ _ => 0⟩,
   ⟨0, 1, fun _ _ => 0⟩,
   ⟨1, 2, fun _ _ => 1⟩,
   ⟨1, 1, fun _ _ => 1⟩,
   ⟨1, 2, fun _ _ => 1⟩,
   ⟨1, 1, fun _ _ => 3⟩⟩

/-- Input with a nonempty kernel but zero constraint rows in both blocks. -/
def noConstraintInput : SolveInput :=
  ⟨⟨1, 1, fun _ _ => 2⟩,
   ⟨1, 1, fun _ _ => 0⟩,
   ⟨0, 1, fun _ _ => 0⟩,
   ⟨0, 1, fun _ _ => 0⟩,
   ⟨0, 1, fun _ _ => 0⟩,
   ⟨0, 1, fun _ _ => 0⟩⟩

/-- Input whose single inequality boundary value `2e9` exceeds the sentinel
`kUpperLimit = 1e9`. -/
def badBoundaryInput : SolveInput :=
  ⟨⟨1, 1, fun _ _ => 2⟩,
   ⟨1, 1, fun _ _ => 0⟩,
   ⟨1, 1, fun _ _ => 1⟩,
   ⟨1, 1, fun _ _ => 2000000000⟩,
   ⟨0, 1, fun _ _ => 0⟩,
   ⟨0, 1, fun _ _ => 0⟩⟩

/-- A segment setter whose value depends on its arguments, used to observe the
delegation contract. -/
def probeSegs : MatrixXd → Nat → Bool := fun m k => m.cols == 1 && k == 4

/-- The lifecycle trace of the leak: construct, two full `Solve` calls on a
well-formed problem, destruct. -/
def leakTrace : List LifecycleOp :=
  [LifecycleOp.construct,
   LifecycleOp.solveOp sampleInput okOracle,
   LifecycleOp.solveOp sampleInput okOracle,
   LifecycleOp.destruct]

/-! ### Helper lemmas about the bound arrays -/

theorem lowerBound_ineq_row (inp : SolveInput) (i : Nat)
    (h : i < inp.inequality_constraint_boundary.rows) :
    lowerBound inp i = inp.inequality_constraint_boundary.entry i 0 := by
  unfold lowerBound
  exact if_pos h

theorem upperBound_ineq_row (inp : SolveInput) (i : Nat)
    (h : i < inp.inequality_constraint_boundary.rows) :
    upperBound inp i = kUpperLimit := by
  unfold upperBound
  exact if_pos h

theorem lowerBound_eq_row (inp : SolveInput) (i : Nat)
    (h : inp.inequality_constraint_boundary.rows ≤ i) :
    lowerBound inp i = inp.equality_constraint_boundary.entry
      (i - inp.inequality_constraint_boundary.rows) 0 - kEpsilon := by
  unfold lowerBound
  exact if_neg (Nat.not_lt.mpr h)

theorem upperBound_eq_row (inp : SolveInput) (i : Nat)
    (h : inp.inequality_constraint_boundary.rows ≤ i) :
    upperBound inp i = inp.equality_constraint_boundary.entry
      (i - inp.inequality_constraint_boundary.rows) 0 + kEpsilon := by
  unfold upperBound
  exact if_neg (Nat.not_lt.mpr h)

/-! ### Claim theorems -/

/-- Claim C1: the claim says that whenever the solver reports non-convergence
or infeasibility, `Solve` reports failure and does not populate a solution.
The code contradicts it: `Solve` never inspects the solver status, so with an
oracle reporting primal infeasibility (whose leftover primal array is all
zeros) the embedded `Solve` still performs the `SetSplineSegs` call on that
zero-filled vector and returns that call's value `true`. -/
theorem c1_solver_failure_ignored :
    infeasibleOracle.statusVal ≠ OSQP_SOLVED
    ∧ (OsqpSpline1dSolver.Solve sampleInput infeasibleOracle
        alwaysTrueSegs 5 d0).result = true
    ∧ (OsqpSpline1dSolver.Solve sampleInput infeasibleOracle
        alwaysTrueSegs 5 d0).splineCalls
      = [(⟨sampleInput.kernel_matrix.rows, 1,
            fun i _ => infeasibleOracle.solutionX i⟩, 5)] :=
  ⟨by decide, rfl, rfl⟩

/-- Claim C2: the claim says every successful workspace setup is matched by
exactly one cleanup before the next setup or before destruction.  The code
contradicts it: `osqp_setup` runs on every full `Solve` call while
`osqp_cleanup` runs only in the destructor, so the trace construct, `Solve`,
`Solve`, destruct contains two setups and one cleanup — the workspace of the
first `Solve` is leaked. -/
theorem c2_workspace_leak :
    workspacePaired (runWorkspaceEvents alwaysTrueSegs 5 d0 leakTrace) = false
    ∧ (runWorkspaceEvents alwaysTrueSegs 5 d0 leakTrace).count
        OsqpEvent.setupCall = 2
    ∧ (runWorkspaceEvents alwaysTrueSegs 5 d0 leakTrace).count
        OsqpEvent.cleanupCall = 1 :=
  ⟨rfl, rfl, rfl⟩

/-- Claim C3: for every equality row (offset `idx` past the inequality block,
target `t` the equality boundary value at `idx`), the bounds are `t - kEpsilon`
and `t + kEpsilon`, so their difference is exactly `2 * kEpsilon` and their
midpoint is exactly `t`, with `kEpsilon = 1e-9`. -/
theorem c3_equality_row_bound_tolerances (inp : SolveInput) (i : Nat)
    (h1 : inp.inequality_constraint_boundary.rows ≤ i)
    (h2 : i < inp.inequality_constraint_boundary.rows
        + inp.equality_constraint_boundary.rows) :
    lowerBound inp i = inp.equality_constraint_boundary.entry
      (i - inp.inequality_constraint_boundary.rows) 0 - kEpsilon
    ∧ upperBound inp i = inp.equality_constraint_boundary.entry
      (i - inp.inequality_constraint_boundary.rows) 0 + kEpsilon
    ∧ upperBound inp i - lowerBound inp i = 2 * kEpsilon
    ∧ (upperBound inp i + lowerBound inp i) / 2
      = inp.equality_constraint_boundary.entry
          (i - inp.inequality_constraint_boundary.rows) 0
    ∧ kEpsilon = 1 / 1000000000 := by
  have hl := lowerBound_eq_row inp i h1
  have hu := upperBound_eq_row inp i h1
  refine ⟨hl, hu, ?_, ?_, rfl⟩
  · rw [hl, hu]; ring
  · rw [hl, hu]; ring

/-- Witness for C3 at the sample input, equality row index 1. -/
theorem c3_equality_row_bound_tolerances_witness :
    sampleInput.inequality_constraint_boundary.rows ≤ 1
    ∧ 1 < sampleInput.inequality_constraint_boundary.rows
        + sampleInput.equality_constraint_boundary.rows
    ∧ upperBound sampleInput 1 - lowerBound sampleInput 1 = 2 * kEpsilon
    ∧ (upperBound sampleInput 1 + lowerBound sampleInput 1) / 2
      = sampleInput.equality_constraint_boundary.entry
          (1 - sampleInput.inequality_constraint_boundary.rows) 0 :=
  ⟨by decide, by decide,
   (c3_equality_row_bound_tolerances sampleInput 1 (by decide) (by decide)).2.2.1,
   (c3_equality_row_bound_tolerances sampleInput 1 (by decide) (by decide)).2.2.2.1⟩

/-- Claim C4: for every inequality row `i`, the lower bound is the `i`-th
inequality boundary value and the upper bound is the sentinel
`kUpperLimit = 1e9`. -/
theorem c4_inequality_row_bounds (inp : SolveInput) (i : Nat)
    (h : i < inp.inequality_constraint_boundary.rows) :
    lowerBound inp i = inp.inequality_constraint_boundary.entry i 0
    ∧ upperBound inp i = kUpperLimit
    ∧ kUpperLimit = 1000000000 :=
  ⟨lowerBound_ineq_row inp i h, upperBound_ineq_row inp i h, rfl⟩

/-- Witness for C4 at the sample input, inequality row index 0. -/
theorem c4_inequality_row_bounds_witness :
    0 < sampleInput.inequality_constraint_boundary.rows
    ∧ lowerBound sampleInput 0 = sampleInput.inequality_constraint_boundary.entry 0 0
    ∧ upperBound sampleInput 0 = kUpperLimit :=
  ⟨by decide,
   (c4_inequality_row_bounds sampleInput 0 (by decide)).1,
   (c4_inequality_row_bounds sampleInput 0 (by decide)).2.1⟩

/-- Claim C5: the combined constraint matrix stacks the inequality rows at
indices below `inequality_constraint_matrix.rows` and the equality rows after,
and (given the block invariant that matrix and boundary have the same row
count) the bound arrays split at exactly the same index. -/
theorem c5_stacking_split (inp : SolveInput)
    (hrows : inp.inequality_constraint_matrix.rows
      = inp.inequality_constraint_boundary.rows) :
    (stackedA inp.inequality_constraint_matrix
        inp.equality_constraint_matrix).rows
      = inp.inequality_constraint_matrix.rows
        + inp.equality_constraint_matrix.rows
    ∧ (∀ i j, i < inp.inequality_constraint_matrix.rows →
        (stackedA inp.inequality_constraint_matrix
            inp.equality_constraint_matrix).entry i j
          = inp.inequality_constraint_matrix.entry i j)
    ∧ (∀ i j, inp.inequality_constraint_matrix.rows ≤ i →
        (stackedA inp.inequality_constraint_matrix
            inp.equality_constraint_matrix).entry i j
          = inp.equality_constraint_matrix.entry
              (i - inp.inequality_constraint_matrix.rows) j)
    ∧ (∀ i, i < inp.inequality_constraint_matrix.rows →
        lowerBound inp i = inp.inequality_constraint_boundary.entry i 0
          ∧ upperBound inp i = kUpperLimit)
    ∧ (∀ i, inp.inequality_constraint_matrix.rows ≤ i →
        lowerBound inp i = inp.equality_constraint_boundary.entry
            (i - inp.inequality_constraint_matrix.rows) 0 - kEpsilon
          ∧ upperBound inp i = inp.equality_constraint_boundary.entry
            (i - inp.inequality_constraint_matrix.rows) 0 + kEpsilon) := by
  refine ⟨rfl, ?_, ?_, ?_, ?_⟩
  · intro i j h
    simp only [stackedA]
    exact if_pos h
  · intro i j h
    simp only [stackedA]
    exact if_neg (Nat.not_lt.mpr h)
  · intro i h
    rw [hrows] at h
    exact ⟨lowerBound_ineq_row inp i h, upperBound_ineq_row inp i h⟩
  · intro i h
    rw [hrows] at h
    rw [hrows]
    exact ⟨lowerBound_eq_row inp i h, upperBound_eq_row inp i h⟩

/-- Witness for C5 at the sample input: entries of the stacked matrix and the
bounds at rows 0 and 1. -/
theorem c5_stacking_split_witness :
    sampleInput.inequality_constraint_matrix.rows
      = sampleInput.inequality_constraint_boundary.rows
    ∧ (stackedA sampleInput.inequality_constraint_matrix
        sampleInput.equality_constraint_matrix).entry 0 1
      = sampleInput.inequality_constraint_matrix.entry 0 1
    ∧ (stackedA sampleInput.inequality_constraint_matrix
        sampleInput.equality_constraint_matrix).entry 1 1
      = sampleInput.equality_constraint_matrix.entry
          (1 - sampleInput.inequality_constraint_matrix.rows) 1
    ∧ lowerBound sampleInput 0
      = sampleInput.inequality_constraint_boundary.entry 0 0
    ∧ upperBound sampleInput 1
      = sampleInput.equality_constraint_boundary.entry
          (1 - sampleInput.inequality_constraint_matrix.rows) 0 + kEpsilon :=
  ⟨rfl,
   (c5_stacking_split sampleInput rfl).2.1 0 1 (by decide),
   (c5_stacking_split sampleInput rfl).2.2.1 1 1 (by decide),
   ((c5_stacking_split sampleInput rfl).2.2.2.1 0 (by decide)).1,
   ((c5_stacking_split sampleInput rfl).2.2.2.2 1 (by decide)).2⟩

/-- Claim C6: if the kernel (cost) matrix has zero rows, `Solve` returns
`false` and emits no backend events, i.e. neither `osqp_setup` nor
`osqp_solve` is invoked. -/
theorem c6_empty_kernel_fails_fast (inp : SolveInput) (oracle : OSQPOracle)
    (setSplineSegs : MatrixXd → Nat → Bool) (splineOrder : Nat) (st : DiagState)
    (h : inp.kernel_matrix.rows = 0) :
    (OsqpSpline1dSolver.Solve inp oracle setSplineSegs splineOrder st).result
      = false
    ∧ (OsqpSpline1dSolver.Solve inp oracle setSplineSegs splineOrder st).events
      = [] := by
  unfold OsqpSpline1dSolver.Solve
  rw [if_pos h]
  exact ⟨rfl, rfl⟩

/-- Witness for C6 at an input with an empty kernel matrix. -/
theorem c6_empty_kernel_fails_fast_witness :
    emptyKernelInput.kernel_matrix.rows = 0
    ∧ (OsqpSpline1dSolver.Solve emptyKernelInput okOracle
        alwaysTrueSegs 5 d0).result = false
    ∧ (OsqpSpline1dSolver.Solve emptyKernelInput okOracle
        alwaysTrueSegs 5 d0).events = [] :=
  ⟨rfl,
   (c6_empty_kernel_fails_fast emptyKernelInput okOracle
     alwaysTrueSegs 5 d0 rfl).1,
   (c6_empty_kernel_fails_fast emptyKernelInput okOracle
     alwaysTrueSegs 5 d0 rfl).2⟩

/-- Claim C7: if the inequality and equality constraint matrices together have
zero rows, `Solve` returns `false` and emits no backend events. -/
theorem c7_empty_constraints_fail_fast (inp : SolveInput) (oracle : OSQPOracle)
    (setSplineSegs : MatrixXd → Nat → Bool) (splineOrder : Nat) (st : DiagState)
    (h : inp.inequality_constraint_matrix.rows
        + inp.equality_constraint_matrix.rows = 0) :
    (OsqpSpline1dSolver.Solve inp oracle setSplineSegs splineOrder st).result
      = false
    ∧ (OsqpSpline1dSolver.Solve inp oracle setSplineSegs splineOrder st).events
      = [] := by
  have hA : (stackedA inp.inequality_constraint_matrix
      inp.equality_constraint_matrix).rows = 0 := h
  unfold OsqpSpline1dSolver.Solve
  by_cases hk : inp.kernel_matrix.rows = 0
  · rw [if_pos hk]
    exact ⟨rfl, rfl⟩
  · rw [if_neg hk, if_pos hA]
    exact ⟨rfl, rfl⟩

/-- Witness for C7 at an input with a nonempty kernel and no constraint
rows. -/
theorem c7_empty_constraints_fail_fast_witness :
    noConstraintInput.inequality_constraint_matrix.rows
      + noConstraintInput.equality_constraint_matrix.rows = 0
    ∧ (OsqpSpline1dSolver.Solve noConstraintInput okOracle
        alwaysTrueSegs 5 d0).result = false
    ∧ (OsqpSpline1dSolver.Solve noConstraintInput okOracle
        alwaysTrueSegs 5 d0).events = [] :=
  ⟨rfl,
   (c7_empty_constraints_fail_fast noConstraintInput okOracle
     alwaysTrueSegs 5 d0 rfl).1,
   (c7_empty_constraints_fail_fast noConstraintInput okOracle
     alwaysTrueSegs 5 d0 rfl).2⟩

/-- Claim C8, counterexample: the claim that `l[i] ≤ u[i]` holds for all
caller-supplied boundary values is false — at an input whose inequality
boundary value `2e9` exceeds the sentinel `kUpperLimit = 1e9`, row 0 has
`l[0] = 2e9 > 1e9 = u[0]`. -/
theorem c8_bounds_ordered_counterexample :
    ¬ (∀ i, i < badBoundaryInput.inequality_constraint_boundary.rows
          + badBoundaryInput.equality_constraint_boundary.rows →
        lowerBound badBoundaryInput i ≤ upperBound badBoundaryInput i) := by
  intro hcl
  have hlt : ¬ (lowerBound badBoundaryInput 0 ≤ upperBound badBoundaryInput 0) := by
    rw [lowerBound_ineq_row badBoundaryInput 0 (by decide),
        upperBound_ineq_row badBoundaryInput 0 (by decide)]
    norm_num [badBoundaryInput, kUpperLimit]
  exact hlt (hcl 0 (by decide))

/-- Claim C8, amended: `l[i] ≤ u[i]` holds for every row of the assembled
system provided every caller-supplied inequality boundary value is at most the
sentinel `kUpperLimit`; equality rows satisfy it unconditionally since
`kEpsilon > 0`. -/
theorem c8_bounds_ordered_amended (inp : SolveInput)
    (hb : ∀ j, j < inp.inequality_constraint_boundary.rows →
        inp.inequality_constraint_boundary.entry j 0 ≤ kUpperLimit)
    (i : Nat)
    (hi : i < inp.inequality_constraint_boundary.rows
        + inp.equality_constraint_boundary.rows) :
    lowerBound inp i ≤ upperBound inp i := by
  by_cases hc : i < inp.inequality_constraint_boundary.rows
  · rw [lowerBound_ineq_row inp i hc, upperBound_ineq_row inp i hc]
    exact hb i hc
  · have hge := Nat.not_lt.mp hc
    rw [lowerBound_eq_row inp i hge, upperBound_eq_row inp i hge]
    have hε : (0:ℚ) < kEpsilon := by norm_num [kEpsilon]
    linarith

/-- Witness for the amended C8 at the sample input, row 0. -/
theorem c8_bounds_ordered_amended_witness :
    lowerBound sampleInput 0 ≤ upperBound sampleInput 0 :=
  c8_bounds_ordered_amended sampleInput
    (fun j _ => by norm_num [sampleInput, kUpperLimit]) 0 (by decide)

/-- Claim C9: past both emptiness checks, `Solve` reshapes the oracle's
`n`-length primal vector into an `n × 1` parameter matrix, performs exactly one
`SetSplineSegs` call on it with the spline order, and returns exactly that
call's value. -/
theorem c9_solution_applied (inp : SolveInput) (oracle : OSQPOracle)
    (setSplineSegs : MatrixXd → Nat → Bool) (splineOrder : Nat) (st : DiagState)
    (h1 : inp.kernel_matrix.rows ≠ 0)
    (h2 : inp.inequality_constraint_matrix.rows
        + inp.equality_constraint_matrix.rows ≠ 0) :
    (OsqpSpline1dSolver.Solve inp oracle setSplineSegs splineOrder st).splineCalls
      = [(⟨inp.kernel_matrix.rows, 1, fun i _ => oracle.solutionX i⟩, splineOrder)]
    ∧ (OsqpSpline1dSolver.Solve inp oracle setSplineSegs splineOrder st).result
      = setSplineSegs
          ⟨inp.kernel_matrix.rows, 1, fun i _ => oracle.solutionX i⟩
          splineOrder := by
  have hA : ¬ (stackedA inp.inequality_constraint_matrix
      inp.equality_constraint_matrix).rows = 0 := h2
  unfold OsqpSpline1dSolver.Solve
  rw [if_neg h1, if_neg hA]
  exact ⟨rfl, rfl⟩

/-- Witness for C9 at the sample input with a discriminating segment
setter. -/
theorem c9_solution_applied_witness :
    (OsqpSpline1dSolver.Solve sampleInput okOracle probeSegs 4 d0).splineCalls
      = [(⟨sampleInput.kernel_matrix.rows, 1, fun i _ => okOracle.solutionX i⟩, 4)]
    ∧ (OsqpSpline1dSolver.Solve sampleInput okOracle probeSegs 4 d0).result
      = probeSegs
          ⟨sampleInput.kernel_matrix.rows, 1, fun i _ => okOracle.solutionX i⟩
          4 :=
  c9_solution_applied sampleInput okOracle probeSegs 4 d0
    (by decide) (by decide)

/-- Claim C10: on either early failure path (zero kernel rows or zero total
constraint rows) `Solve` returns `false`, makes no `SetSplineSegs` call, and
leaves the diagnostic counters `last_num_param_` and `last_num_constraint_` at
their prior values. -/
theorem c10_early_exit_preserves_state (inp : SolveInput) (oracle : OSQPOracle)
    (setSplineSegs : MatrixXd → Nat → Bool) (splineOrder : Nat) (st : DiagState)
    (h : inp.kernel_matrix.rows = 0
       ∨ inp.inequality_constraint_matrix.rows
          + inp.equality_constraint_matrix.rows = 0) :
    (OsqpSpline1dSolver.Solve inp oracle setSplineSegs splineOrder st).result
      = false
    ∧ (OsqpSpline1dSolver.Solve inp oracle setSplineSegs splineOrder st).diag
      = st
    ∧ (OsqpSpline1dSolver.Solve inp oracle setSplineSegs splineOrder st).splineCalls
      = [] := by
  unfold OsqpSpline1dSolver.Solve
  rcases h with h | h
  · rw [if_pos h]
    exact ⟨rfl, rfl, rfl⟩
  · have hA : (stackedA inp.inequality_constraint_matrix
        inp.equality_constraint_matrix).rows = 0 := h
    by_cases hk : inp.kernel_matrix.rows = 0
    · rw [if_pos hk]
      exact ⟨rfl, rfl, rfl⟩
    · rw [if_neg hk, if_pos hA]
      exact ⟨rfl, rfl, rfl⟩

/-- Witness for C10 at the no-constraint input with nonzero prior diagnostic
counters. -/
theorem c10_early_exit_preserves_state_witness :
    (OsqpSpline1dSolver.Solve noConstraintInput okOracle
        alwaysTrueSegs 5 ⟨7, 9⟩).result = false
    ∧ (OsqpSpline1dSolver.Solve noConstraintInput okOracle
        alwaysTrueSegs 5 ⟨7, 9⟩).diag = ⟨7, 9⟩
    ∧ (OsqpSpline1dSolver.Solve noConstraintInput okOracle
        alwaysTrueSegs 5 ⟨7, 9⟩).splineCalls = [] :=
  c10_early_exit_preserves_state noConstraintInput okOracle
    alwaysTrueSegs 5 ⟨7, 9⟩ (Or.inr rfl)

end Apollo
